import Mathlib

/-!
Verification of the SIR epidemic simulator (`simulation.py`) against its
specification.  The core under verification is `run_sir_model`: explicit
(forward) Euler integration of the Susceptible–Infected–Recovered model with
an optional single intervention that changes the transmission rate, per-step
clamping, and per-step renormalization of the total population.

The embedding uses exact rational arithmetic (`ℚ`) in place of floating
point, so conservation statements are exact.  The Python function's dynamic
failure points are modelled by `Option`:
  * `time_steps = 0` raises `ZeroDivisionError` when computing
    `dt = total_time / time_steps` (before any array is allocated);
  * if an intervention fires (`t[i] >= intervencao_dia`) while
    `beta_pos_intervencao` is `None`, the multiplication
    `-current_beta * S[i] * I[i]` raises `TypeError` mid-loop.
Both are modelled as a `none` result.
-/

/-- The parameters of `run_sir_model`, in source order:
`N, I0, R0_param, beta, gamma, total_time, time_steps,
intervencao_dia=None, beta_pos_intervencao=None`. -/
structure Config where
  N : ℚ
  I0 : ℚ
  R0_param : ℚ
  beta : ℚ
  gamma : ℚ
  total_time : ℚ
  time_steps : ℕ
  intervencao_dia : Option ℚ
  beta_pos_intervencao : Option ℚ

/-- Step size: `dt = total_time / time_steps` (line 87), computed once. -/
def Config.dt (cfg : Config) : ℚ :=
  cfg.total_time / (cfg.time_steps : ℚ)

/-- Time axis value `t[i]` of `np.linspace(0, total_time, time_steps + 1)`
(line 88): under exact arithmetic, `t[i] = i * (total_time / time_steps)`. -/
def Config.t (cfg : Config) (i : ℕ) : ℚ :=
  (i : ℚ) * cfg.dt

/-- Rate selection (lines 102-104): `current_beta = beta` unless
`intervencao_dia is not None and t[i] >= intervencao_dia`, in which case
`current_beta = beta_pos_intervencao`.  A `none` result models the Python
`TypeError` raised when the selected `beta_pos_intervencao` is `None` and is
then used in arithmetic. -/
def currentBeta (cfg : Config) (ti : ℚ) : Option ℚ :=
  match cfg.intervencao_dia with
  | none => some cfg.beta
  | some dia => if dia ≤ ti then cfg.beta_pos_intervencao else some cfg.beta

/-- The forward Euler update (lines 106-117): derivatives
`d_S = -current_beta*S*I/N`, `d_I = current_beta*S*I/N - gamma*I`,
`d_R = gamma*I`, then `X[i+1] = X[i] + d_X * dt` for each compartment.
The state triple is `(S, I, R)`. -/
def rawUpdate (cfg : Config) (current_beta : ℚ) (s : ℚ × ℚ × ℚ) : ℚ × ℚ × ℚ :=
  (s.1 + (-current_beta * s.1 * s.2.1 / cfg.N) * cfg.dt,
   s.2.1 + ((current_beta * s.1 * s.2.1 / cfg.N) - cfg.gamma * s.2.1) * cfg.dt,
   s.2.2 + (cfg.gamma * s.2.1) * cfg.dt)

/-- The clamping step (lines 120-122), independently per compartment:
`S[i+1] = max(0, S[i+1])`, `I[i+1] = max(0, I[i+1])`,
`R[i+1] = min(N, R[i+1])`. -/
def clampState (cfg : Config) (s : ℚ × ℚ × ℚ) : ℚ × ℚ × ℚ :=
  (max 0 s.1, max 0 s.2.1, min cfg.N s.2.2)

/-- The renormalization step (lines 125-130): with
`total = S[i+1] + I[i+1] + R[i+1]`, `if total != N and total > 0` each
compartment is multiplied by `fator = N / total`; otherwise nothing happens. -/
def renormalize (cfg : Config) (s : ℚ × ℚ × ℚ) : ℚ × ℚ × ℚ :=
  if s.1 + s.2.1 + s.2.2 ≠ cfg.N ∧ 0 < s.1 + s.2.1 + s.2.2 then
    (s.1 * (cfg.N / (s.1 + s.2.1 + s.2.2)),
     s.2.1 * (cfg.N / (s.1 + s.2.1 + s.2.2)),
     s.2.2 * (cfg.N / (s.1 + s.2.1 + s.2.2)))
  else s

/-- One full loop iteration (lines 106-130): Euler update, then clamping,
then renormalization. -/
def eulerStep (cfg : Config) (current_beta : ℚ) (s : ℚ × ℚ × ℚ) : ℚ × ℚ × ℚ :=
  renormalize cfg (clampState cfg (rawUpdate cfg current_beta s))

/-- The `(S[i], I[i], R[i])` triple after `i` loop iterations.  Index 0 is
the initial condition `S[0] = N - I0 - R0_param`, `I[0] = I0`,
`R[0] = R0_param` (lines 95-97); step `i+1` applies `eulerStep` with the
rate selected at time `t[i]`.  `none` models the `TypeError` crash. -/
def state (cfg : Config) : ℕ → Option (ℚ × ℚ × ℚ)
  | 0 => some (cfg.N - cfg.I0 - cfg.R0_param, cfg.I0, cfg.R0_param)
  | i + 1 =>
    match state cfg i with
    | none => none
    | some s =>
      match currentBeta cfg (cfg.t i) with
      | none => none
      | some b => some (eulerStep cfg b s)

/-- `state` with a default, used only to read off values that are known to
be defined. -/
def stateD (cfg : Config) (i : ℕ) : ℚ × ℚ × ℚ :=
  (state cfg i).getD (0, 0, 0)

/-- `run_sir_model` (lines 64-133): returns `(t, S, I, R)`, four sequences of
length `time_steps + 1`.  `none` models the two dynamic failures: division
by zero at `dt = total_time / time_steps` when `time_steps = 0` (before any
array allocation), and the `TypeError` when an intervention fires with
`beta_pos_intervencao = None` (mid-loop, after allocation); the latter is
exactly the case where some `state` is `none`, and since `none` propagates
through the recursion it suffices to examine the final state. -/
def run_sir_model (cfg : Config) : Option (List ℚ × List ℚ × List ℚ × List ℚ) :=
  if cfg.time_steps = 0 then none
  else
    match state cfg cfg.time_steps with
    | none => none
    | some _ =>
      some ((List.range (cfg.time_steps + 1)).map cfg.t,
            (List.range (cfg.time_steps + 1)).map (fun i => (stateD cfg i).1),
            (List.range (cfg.time_steps + 1)).map (fun i => (stateD cfg i).2.1),
            (List.range (cfg.time_steps + 1)).map (fun i => (stateD cfg i).2.2))

/-- A valid Model Configuration, per the specification's data-model table:
positive population, non-negative initial compartments fitting in the
population, non-negative transmission rate, positive recovery rate, positive
horizon, positive step count, and `beta_pos_intervencao` present whenever
`intervencao_dia` is. -/
def Config.valid (cfg : Config) : Prop :=
  0 < cfg.N ∧ 0 ≤ cfg.I0 ∧ 0 ≤ cfg.R0_param ∧ cfg.I0 + cfg.R0_param ≤ cfg.N ∧
  0 ≤ cfg.beta ∧ 0 < cfg.gamma ∧ 0 < cfg.total_time ∧ 0 < cfg.time_steps ∧
  (cfg.intervencao_dia.isSome → cfg.beta_pos_intervencao.isSome)

instance (cfg : Config) : Decidable cfg.valid := by
  unfold Config.valid
  infer_instance

/-- `cfg` with its `beta_pos_intervencao` argument replaced by `r` and every
other argument unchanged. -/
def withRate (cfg : Config) (r : Option ℚ) : Config :=
  ⟨cfg.N, cfg.I0, cfg.R0_param, cfg.beta, cfg.gamma, cfg.total_time,
   cfg.time_steps, cfg.intervencao_dia, r⟩

/-- A small valid configuration without intervention: population 2, one
initial infected, recovery rate 1, one step of size 1. -/
def cfgW : Config := ⟨2, 1, 0, 0, 1, 1, 1, none, none⟩

/-- A small valid configuration whose intervention (day 0, replacement rate
7) fires at the first step. -/
def cfgI : Config := ⟨1, 0, 0, 0, 1, 1, 1, some 0, some 7⟩

/-- A degenerate configuration (zero rates) used to exercise the
renormalization guard on an all-zero state. -/
def cfg0 : Config := ⟨1, 0, 0, 0, 0, 1, 1, none, none⟩

/-- An invalid configuration: `intervencao_dia` is set but
`beta_pos_intervencao` is missing.  The intervention day (5) lies beyond the
horizon (1), so the selected rate is never `None` at any executed step. -/
def cfgC5 : Config := ⟨1, 0, 0, 0, 0, 1, 1, some 5, none⟩

/-- An invalid configuration like `cfgC5` but whose intervention (day 0)
fires at the first step while `beta_pos_intervencao` is missing. -/
def cfgC5fire : Config := ⟨1, 0, 0, 0, 0, 1, 1, some 0, none⟩

/-- An invalid configuration with `time_steps = 0`. -/
def cfgC5zero : Config := ⟨1, 0, 0, 0, 0, 1, 0, some 5, some 1⟩

/-- The per-step invariant: all three compartments are non-negative and sum
to the population. -/
def StateInv (cfg : Config) (s : ℚ × ℚ × ℚ) : Prop :=
  0 ≤ s.1 ∧ 0 ≤ s.2.1 ∧ 0 ≤ s.2.2 ∧ s.1 + s.2.1 + s.2.2 = cfg.N

lemma state_succ (cfg : Config) (i : ℕ) :
    state cfg (i + 1) =
      match state cfg i with
      | none => none
      | some s =>
        match currentBeta cfg (cfg.t i) with
        | none => none
        | some b => some (eulerStep cfg b s) := rfl

lemma inv_clamp_renorm (cfg : Config) (u1 u2 u3 : ℚ) (hN : 0 < cfg.N)
    (hu3 : 0 ≤ u3) (husum : u1 + u2 + u3 = cfg.N) :
    StateInv cfg (renormalize cfg (max 0 u1, max 0 u2, min cfg.N u3)) := by
  have hc1 : 0 ≤ max 0 u1 := le_max_left 0 u1
  have hc2 : 0 ≤ max 0 u2 := le_max_left 0 u2
  have hc3 : 0 ≤ min cfg.N u3 := le_min hN.le hu3
  have htot : 0 < max 0 u1 + max 0 u2 + min cfg.N u3 := by
    rcases le_or_lt (max 0 u1 + max 0 u2 + min cfg.N u3) 0 with hle | hpos
    · exfalso
      have h1 : u1 ≤ 0 := by linarith [le_max_right 0 u1]
      have h2 : u2 ≤ 0 := by linarith [le_max_right 0 u2]
      have h3 : cfg.N ≤ u3 := by linarith
      have h4 : cfg.N ≤ min cfg.N u3 := le_min le_rfl h3
      linarith
    · exact hpos
  by_cases hEq : max 0 u1 + max 0 u2 + min cfg.N u3 = cfg.N
  · unfold renormalize
    rw [if_neg (by simp [hEq])]
    exact ⟨hc1, hc2, hc3, hEq⟩
  · unfold renormalize
    rw [if_pos ⟨by exact_mod_cast hEq, htot⟩]
    have hf : 0 ≤ cfg.N / (max 0 u1 + max 0 u2 + min cfg.N u3) :=
      div_nonneg hN.le htot.le
    refine ⟨mul_nonneg hc1 hf, mul_nonneg hc2 hf, mul_nonneg hc3 hf, ?_⟩
    have hne : max 0 u1 + max 0 u2 + min cfg.N u3 ≠ 0 := ne_of_gt htot
    field_simp
    ring

lemma inv_eulerStep (cfg : Config) (b : ℚ) (s : ℚ × ℚ × ℚ)
    (hN : 0 < cfg.N) (hg : 0 ≤ cfg.gamma) (hdt : 0 ≤ cfg.dt)
    (h : StateInv cfg s) : StateInv cfg (eulerStep cfg b s) := by
  obtain ⟨S, I, R⟩ := s
  obtain ⟨h1, h2, h3, hsum⟩ := h
  simp only at h1 h2 h3 hsum
  have hu3 : 0 ≤ R + (cfg.gamma * I) * cfg.dt := by
    have := mul_nonneg (mul_nonneg hg h2) hdt
    linarith
  have husum : (S + (-b * S * I / cfg.N) * cfg.dt) +
      (I + ((b * S * I / cfg.N) - cfg.gamma * I) * cfg.dt) +
      (R + (cfg.gamma * I) * cfg.dt) = cfg.N := by
    rw [← hsum]; ring
  exact inv_clamp_renorm cfg _ _ _ hN hu3 husum

lemma state_inv (cfg : Config) (hv : cfg.valid) :
    ∀ i s, state cfg i = some s → StateInv cfg s := by
  obtain ⟨hN, hI0, hR0, hsum, hb, hg, hT, hst, hint⟩ := hv
  have hdt : 0 ≤ cfg.dt := div_nonneg hT.le (Nat.cast_nonneg _)
  intro i
  induction i with
  | zero =>
    intro s hs
    simp only [state, Option.some.injEq] at hs
    subst hs
    refine ⟨?_, hI0, hR0, ?_⟩
    · show 0 ≤ cfg.N - cfg.I0 - cfg.R0_param
      linarith
    · show cfg.N - cfg.I0 - cfg.R0_param + cfg.I0 + cfg.R0_param = cfg.N
      ring
  | succ i ih =>
    intro s hs
    rw [state_succ] at hs
    cases hstate : state cfg i with
    | none => rw [hstate] at hs; exact absurd hs (by simp)
    | some s0 =>
      rw [hstate] at hs
      cases hbeta : currentBeta cfg (cfg.t i) with
      | none => rw [hbeta] at hs; exact absurd hs (by simp)
      | some b =>
        rw [hbeta] at hs
        simp only [Option.some.injEq] at hs
        exact hs ▸ inv_eulerStep cfg b s0 hN hg.le hdt (ih s0 hstate)

lemma state_isSome (cfg : Config) (hv : cfg.valid) (i : ℕ) :
    (state cfg i).isSome := by
  induction i with
  | zero => simp [state]
  | succ i ih =>
    rw [state_succ]
    obtain ⟨s, hs⟩ := Option.isSome_iff_exists.mp ih
    rw [hs]
    have hbeta : (currentBeta cfg (cfg.t i)).isSome := by
      unfold currentBeta
      rcases hdia : cfg.intervencao_dia with _ | dia
      · simp
      · have hbp : cfg.beta_pos_intervencao.isSome := hv.2.2.2.2.2.2.2.2 (by simp [hdia])
        by_cases hle : dia ≤ cfg.t i
        · simp [hle, hbp]
        · simp [hle]
    obtain ⟨b, hbb⟩ := Option.isSome_iff_exists.mp hbeta
    rw [hbb]
    simp

lemma stateD_eq (cfg : Config) (i : ℕ) (s : ℚ × ℚ × ℚ)
    (h : state cfg i = some s) : stateD cfg i = s := by
  simp [stateD, h]

lemma run_eq_of_valid (cfg : Config) (hv : cfg.valid) :
    run_sir_model cfg =
      some ((List.range (cfg.time_steps + 1)).map cfg.t,
            (List.range (cfg.time_steps + 1)).map (fun i => (stateD cfg i).1),
            (List.range (cfg.time_steps + 1)).map (fun i => (stateD cfg i).2.1),
            (List.range (cfg.time_steps + 1)).map (fun i => (stateD cfg i).2.2)) := by
  obtain ⟨s, hs⟩ := Option.isSome_iff_exists.mp (state_isSome cfg hv cfg.time_steps)
  unfold run_sir_model
  rw [if_neg hv.2.2.2.2.2.2.2.1.ne', hs]

lemma getD_map_range (f : ℕ → ℚ) {n i : ℕ} (h : i < n) :
    ((List.range n).map f).getD i 0 = f i := by
  have hl : i < ((List.range n).map f).length := by simpa using h
  rw [List.getD_eq_getElem _ _ hl]
  simp

lemma currentBeta_none (cfg : Config) (ti : ℚ) (h : cfg.intervencao_dia = none) :
    currentBeta cfg ti = some cfg.beta := by
  unfold currentBeta
  rw [h]

lemma currentBeta_of_lt (cfg : Config) (T ti : ℚ)
    (hT : cfg.intervencao_dia = some T) (h : ti < T) :
    currentBeta cfg ti = some cfg.beta := by
  unfold currentBeta
  rw [hT]
  exact if_neg (not_le.mpr h)

lemma currentBeta_of_ge (cfg : Config) (T ti : ℚ)
    (hT : cfg.intervencao_dia = some T) (h : T ≤ ti) :
    currentBeta cfg ti = cfg.beta_pos_intervencao := by
  unfold currentBeta
  rw [hT]
  exact if_pos h

lemma state_succ_of (cfg : Config) (i : ℕ) (s : ℚ × ℚ × ℚ) (b : ℚ)
    (hs : state cfg i = some s) (hb : currentBeta cfg (cfg.t i) = some b) :
    state cfg (i + 1) = some (eulerStep cfg b s) := by
  rw [state_succ, hs, hb]

lemma eulerStep_withRate (cfg : Config) (r : Option ℚ) (b : ℚ) (s : ℚ × ℚ × ℚ) :
    eulerStep (withRate cfg r) b s = eulerStep cfg b s := rfl

lemma state_withRate (cfg : Config) (r : Option ℚ)
    (h : cfg.intervencao_dia = none) :
    ∀ i, state (withRate cfg r) i = state cfg i := by
  intro i
  induction i with
  | zero => rfl
  | succ i ih =>
    rw [state_succ, state_succ, ih,
      currentBeta_none (withRate cfg r) _ h, currentBeta_none cfg _ h]
    rfl

lemma stateD_withRate (cfg : Config) (r : Option ℚ)
    (h : cfg.intervencao_dia = none) (i : ℕ) :
    stateD (withRate cfg r) i = stateD cfg i := by
  unfold stateD
  rw [state_withRate cfg r h]

lemma run_withRate (cfg : Config) (r : Option ℚ)
    (h : cfg.intervencao_dia = none) :
    run_sir_model (withRate cfg r) = run_sir_model cfg := by
  unfold run_sir_model
  rw [show (withRate cfg r).time_steps = cfg.time_steps from rfl,
    state_withRate cfg r h,
    show Config.t (withRate cfg r) = Config.t cfg from rfl,
    funext (stateD_withRate cfg r h)]

lemma run_lists_inv (cfg : Config) (hv : cfg.valid) (t S I R : List ℚ)
    (h : run_sir_model cfg = some (t, S, I, R)) (i : ℕ)
    (hi : i ≤ cfg.time_steps) :
    0 ≤ S.getD i 0 ∧ 0 ≤ I.getD i 0 ∧ 0 ≤ R.getD i 0 ∧
      S.getD i 0 + I.getD i 0 + R.getD i 0 = cfg.N := by
  rw [run_eq_of_valid cfg hv] at h
  simp only [Option.some.injEq, Prod.mk.injEq] at h
  obtain ⟨ht, hS, hI, hR⟩ := h
  have hlt : i < cfg.time_steps + 1 := Nat.lt_succ_of_le hi
  obtain ⟨s, hs⟩ := Option.isSome_iff_exists.mp (state_isSome cfg hv i)
  have hinv := state_inv cfg hv i s hs
  rw [← hS, ← hI, ← hR, getD_map_range _ hlt, getD_map_range _ hlt,
    getD_map_range _ hlt, stateD_eq cfg i s hs]
  exact hinv

lemma cfgW_valid : cfgW.valid := by
  norm_num [Config.valid, cfgW]

lemma cfgW_run : run_sir_model cfgW = some ([0, 1], [1, 1], [1, 0], [0, 1]) := by
  norm_num [run_sir_model, state, stateD, cfgW, eulerStep, renormalize,
    clampState, rawUpdate, currentBeta, Config.t, Config.dt, List.range_succ]

/-- C1: for every valid configuration and every step index `i` from 0 to
`time_steps`, the sum `S[i] + I[i] + R[i]` of the compartment sequences
returned by `run_sir_model` equals the population exactly (the embedding
works in exact rational arithmetic, so the floating-point tolerance of the
specification becomes exact equality). -/
theorem conservation_of_population (cfg : Config) (hv : cfg.valid)
    (t S I R : List ℚ) (h : run_sir_model cfg = some (t, S, I, R)) :
    ∀ i ≤ cfg.time_steps, S.getD i 0 + I.getD i 0 + R.getD i 0 = cfg.N := by
  intro i hi
  exact (run_lists_inv cfg hv t S I R h i hi).2.2.2

/-- Witness for C1 at a concrete configuration and step index 1. -/
theorem conservation_of_population_witness :
    cfgW.valid ∧
      run_sir_model cfgW = some ([0, 1], [1, 1], [1, 0], [0, 1]) ∧
      [(1 : ℚ), 1].getD 1 0 + [(1 : ℚ), 0].getD 1 0 + [(0 : ℚ), 1].getD 1 0 =
        cfgW.N :=
  ⟨cfgW_valid, cfgW_run,
    conservation_of_population cfgW cfgW_valid _ _ _ _ cfgW_run 1 (by norm_num [cfgW])⟩

/-- C4: for every valid configuration and every index `i` from 0 to
`time_steps`, the result of `run_sir_model` satisfies `S[i] >= 0`,
`I[i] >= 0` and `0 <= R[i] <= population`. -/
theorem compartment_bounds (cfg : Config) (hv : cfg.valid)
    (t S I R : List ℚ) (h : run_sir_model cfg = some (t, S, I, R)) :
    ∀ i ≤ cfg.time_steps,
      0 ≤ S.getD i 0 ∧ 0 ≤ I.getD i 0 ∧ 0 ≤ R.getD i 0 ∧
        R.getD i 0 ≤ cfg.N := by
  intro i hi
  obtain ⟨h1, h2, h3, h4⟩ := run_lists_inv cfg hv t S I R h i hi
  exact ⟨h1, h2, h3, by linarith⟩

/-- Witness for C4 at a concrete configuration and step index 1. -/
theorem compartment_bounds_witness :
    cfgW.valid ∧
      run_sir_model cfgW = some ([0, 1], [1, 1], [1, 0], [0, 1]) ∧
      (0 ≤ [(1 : ℚ), 1].getD 1 0 ∧ 0 ≤ [(1 : ℚ), 0].getD 1 0 ∧
        0 ≤ [(0 : ℚ), 1].getD 1 0 ∧ [(0 : ℚ), 1].getD 1 0 ≤ cfgW.N) :=
  ⟨cfgW_valid, cfgW_run,
    compartment_bounds cfgW cfgW_valid _ _ _ _ cfgW_run 1 (by norm_num [cfgW])⟩

/-- C9 (implicit): every compartment value is also bounded above by the
population: `S[i] <= population` and `I[i] <= population`, even though the
per-step clamp caps only `R`; the lower clamps plus the renormalization to
total `population` bound every compartment from above. -/
theorem compartments_le_population (cfg : Config) (hv : cfg.valid)
    (t S I R : List ℚ) (h : run_sir_model cfg = some (t, S, I, R)) :
    ∀ i ≤ cfg.time_steps, S.getD i 0 ≤ cfg.N ∧ I.getD i 0 ≤ cfg.N := by
  intro i hi
  obtain ⟨h1, h2, h3, h4⟩ := run_lists_inv cfg hv t S I R h i hi
  exact ⟨by linarith, by linarith⟩

/-- Witness for C9 at a concrete configuration and step index 0. -/
theorem compartments_le_population_witness :
    cfgW.valid ∧
      run_sir_model cfgW = some ([0, 1], [1, 1], [1, 0], [0, 1]) ∧
      ([(1 : ℚ), 1].getD 0 0 ≤ cfgW.N ∧ [(1 : ℚ), 0].getD 0 0 ≤ cfgW.N) :=
  ⟨cfgW_valid, cfgW_run,
    compartments_le_population cfgW cfgW_valid _ _ _ _ cfgW_run 0 (by norm_num)⟩

lemma cfgI_valid : cfgI.valid := by
  norm_num [Config.valid, cfgI]

lemma cfgI_run : run_sir_model cfgI = some ([0, 1], [1, 1], [0, 0], [0, 0]) := by
  norm_num [run_sir_model, state, stateD, cfgI, eulerStep, renormalize,
    clampState, rawUpdate, currentBeta, Config.t, Config.dt, List.range_succ]

/-- C2: with an intervention configured (`intervencao_dia = T`,
`beta_pos_intervencao = r`), the rate used by the derivative computation of
step `i` (whose state advances `state cfg i` to `state cfg (i+1)`) is the
baseline `beta` whenever the step start time `t[i] < T`, and `r` whenever
`t[i] >= T`; the switch never takes effect at a step whose start time is
strictly before `T`. -/
theorem intervention_switch (cfg : Config) (T r : ℚ) (i : ℕ)
    (hT : cfg.intervencao_dia = some T) (hr : cfg.beta_pos_intervencao = some r)
    (s : ℚ × ℚ × ℚ) (hs : state cfg i = some s) :
    (cfg.t i < T → state cfg (i + 1) = some (eulerStep cfg cfg.beta s)) ∧
    (T ≤ cfg.t i → state cfg (i + 1) = some (eulerStep cfg r s)) := by
  constructor
  · intro hlt
    exact state_succ_of cfg i s cfg.beta hs (currentBeta_of_lt cfg T _ hT hlt)
  · intro hge
    refine state_succ_of cfg i s r hs ?_
    rw [currentBeta_of_ge cfg T _ hT hge, hr]

/-- Witness for C2: at `cfgI` the intervention day is 0, so the very first
step (start time 0) already uses the replacement rate 7. -/
theorem intervention_switch_witness :
    cfgI.intervencao_dia = some 0 ∧ cfgI.beta_pos_intervencao = some 7 ∧
      state cfgI 0 = some (1, 0, 0) ∧ (0 : ℚ) ≤ cfgI.t 0 ∧
      state cfgI 1 = some (eulerStep cfgI 7 (1, 0, 0)) :=
  ⟨rfl, rfl, by norm_num [state, cfgI], by norm_num [Config.t, Config.dt, cfgI],
    (intervention_switch cfgI 0 7 0 rfl rfl (1, 0, 0)
        (by norm_num [state, cfgI])).2
      (by norm_num [Config.t, Config.dt, cfgI])⟩

/-- C3: each step of `run_sir_model` advances the state by the explicit
Euler rule with the effective rate `b`: the derivatives are
`dS = -b*S*I/N`, `dI = b*S*I/N - gamma*I`, `dR = gamma*I`, the forward
update is `X + dX*dt` with `dt = total_time/time_steps` computed once, and
clamping (`max 0` on S and I, `min N` on R) is applied strictly after the
update, independently per compartment (the conservation renormalization of
lines 124-130 then follows). -/
theorem euler_update_then_clamp (cfg : Config) (i : ℕ)
    (_hi : i < cfg.time_steps) (S I R b : ℚ)
    (hs : state cfg i = some (S, I, R))
    (hb : currentBeta cfg (cfg.t i) = some b) :
    cfg.dt = cfg.total_time / (cfg.time_steps : ℚ) ∧
    state cfg (i + 1) = some (renormalize cfg
      (max 0 (S + (-b * S * I / cfg.N) * cfg.dt),
       max 0 (I + ((b * S * I / cfg.N) - cfg.gamma * I) * cfg.dt),
       min cfg.N (R + (cfg.gamma * I) * cfg.dt))) := by
  refine ⟨rfl, ?_⟩
  rw [state_succ_of cfg i (S, I, R) b hs hb]
  rfl

/-- Witness for C3 at `cfgW`, step 0. -/
theorem euler_update_then_clamp_witness :
    (0 < cfgW.time_steps ∧ state cfgW 0 = some (1, 1, 0) ∧
      currentBeta cfgW (cfgW.t 0) = some 0) ∧
    state cfgW 1 = some (renormalize cfgW
      (max 0 (1 + (-0 * 1 * 1 / cfgW.N) * cfgW.dt),
       max 0 (1 + ((0 * 1 * 1 / cfgW.N) - cfgW.gamma * 1) * cfgW.dt),
       min cfgW.N (0 + (cfgW.gamma * 1) * cfgW.dt))) :=
  ⟨⟨by norm_num [cfgW], by norm_num [state, cfgW],
      by norm_num [currentBeta, cfgW]⟩,
    (euler_update_then_clamp cfgW 0 (by norm_num [cfgW]) 1 1 0 0
        (by norm_num [state, cfgW]) (by norm_num [currentBeta, cfgW])).2⟩

lemma state_const_of_I0_zero (cfg : Config) (hv : cfg.valid)
    (hI0 : cfg.I0 = 0) :
    ∀ i, state cfg i = some (cfg.N - cfg.R0_param, 0, cfg.R0_param) := by
  obtain ⟨hN, hI0n, hR0, hsum, hb, hg, hT, hst, hint⟩ := hv
  have hS : 0 ≤ cfg.N - cfg.R0_param := by
    rw [hI0] at hsum; linarith
  have hR : cfg.R0_param ≤ cfg.N := by
    rw [hI0] at hsum; linarith
  intro i
  induction i with
  | zero =>
    rw [show state cfg 0 =
        some (cfg.N - cfg.I0 - cfg.R0_param, cfg.I0, cfg.R0_param) from rfl,
      hI0, sub_zero]
  | succ i ih =>
    have hbsome : (currentBeta cfg (cfg.t i)).isSome := by
      unfold currentBeta
      rcases hdia : cfg.intervencao_dia with _ | dia
      · simp
      · have hbp : cfg.beta_pos_intervencao.isSome := hint (by simp [hdia])
        by_cases hle : dia ≤ cfg.t i
        · simp [hle, hbp]
        · simp [hle]
    obtain ⟨b, hbb⟩ := Option.isSome_iff_exists.mp hbsome
    rw [state_succ_of cfg i _ b ih hbb]
    have e1 : rawUpdate cfg b (cfg.N - cfg.R0_param, 0, cfg.R0_param) =
        (cfg.N - cfg.R0_param, 0, cfg.R0_param) := by
      unfold rawUpdate
      simp only [Prod.mk.injEq]
      refine ⟨by ring, by ring, by ring⟩
    have e2 : clampState cfg (cfg.N - cfg.R0_param, 0, cfg.R0_param) =
        (cfg.N - cfg.R0_param, 0, cfg.R0_param) := by
      unfold clampState
      simp only [Prod.mk.injEq]
      exact ⟨max_eq_right hS, max_self 0, min_eq_right hR⟩
    have e3 : renormalize cfg (cfg.N - cfg.R0_param, 0, cfg.R0_param) =
        (cfg.N - cfg.R0_param, 0, cfg.R0_param) := by
      unfold renormalize
      rw [if_neg]
      intro hcon
      exact hcon.1 (by ring)
    unfold eulerStep
    rw [e1, e2, e3]

/-- C6: with a valid configuration and `I0 = 0`, every entry of the returned
infected sequence is 0 and every entry of the susceptible sequence equals
the initial susceptible count `population - initial_recovered`; no epidemic
occurs. -/
theorem zero_initial_infected (cfg : Config) (hv : cfg.valid)
    (hI0 : cfg.I0 = 0) (t S I R : List ℚ)
    (h : run_sir_model cfg = some (t, S, I, R)) :
    ∀ i ≤ cfg.time_steps,
      I.getD i 0 = 0 ∧ S.getD i 0 = cfg.N - cfg.R0_param := by
  intro i hi
  rw [run_eq_of_valid cfg hv] at h
  simp only [Option.some.injEq, Prod.mk.injEq] at h
  obtain ⟨ht, hS, hI, hR⟩ := h
  have hlt : i < cfg.time_steps + 1 := Nat.lt_succ_of_le hi
  have hst := state_const_of_I0_zero cfg hv hI0 i
  rw [← hS, ← hI, getD_map_range _ hlt, getD_map_range _ hlt,
    stateD_eq cfg i _ hst]
  exact ⟨rfl, rfl⟩

/-- Witness for C6 at `cfgI` (which has `I0 = 0`), step index 1. -/
theorem zero_initial_infected_witness :
    cfgI.valid ∧ cfgI.I0 = 0 ∧
      run_sir_model cfgI = some ([0, 1], [1, 1], [0, 0], [0, 0]) ∧
      ([(0 : ℚ), 0].getD 1 0 = 0 ∧ [(1 : ℚ), 1].getD 1 0 = cfgI.N - cfgI.R0_param) :=
  ⟨cfgI_valid, rfl, cfgI_run,
    zero_initial_infected cfgI cfgI_valid rfl _ _ _ _ cfgI_run 1
      (by norm_num [cfgI])⟩

/-- C7: at every step, renormalization is applied exactly when the
post-clamp total differs from the population and is strictly positive, in
which case all three values are scaled by `population / total`; when the
total is 0 (or equals the population) the step is a defined no-op — the
guarded division by `total` is never performed with divisor 0. -/
theorem renormalization_guard (cfg : Config) (b : ℚ) (s c : ℚ × ℚ × ℚ)
    (hc : clampState cfg (rawUpdate cfg b s) = c) :
    (c.1 + c.2.1 + c.2.2 ≠ cfg.N → 0 < c.1 + c.2.1 + c.2.2 →
      eulerStep cfg b s =
        (c.1 * (cfg.N / (c.1 + c.2.1 + c.2.2)),
         c.2.1 * (cfg.N / (c.1 + c.2.1 + c.2.2)),
         c.2.2 * (cfg.N / (c.1 + c.2.1 + c.2.2)))) ∧
    (c.1 + c.2.1 + c.2.2 = 0 → eulerStep cfg b s = c) ∧
    (c.1 + c.2.1 + c.2.2 = cfg.N → eulerStep cfg b s = c) := by
  subst hc
  unfold eulerStep renormalize
  refine ⟨fun h1 h2 => ?_, fun h0 => ?_, fun hN => ?_⟩
  · rw [if_pos ⟨h1, h2⟩]
  · rw [if_neg]
    intro hcon
    rw [h0] at hcon
    exact lt_irrefl 0 hcon.2
  · rw [if_neg]
    intro hcon
    exact hcon.1 hN

/-- Witness for C7: a clamped all-zero state (total 0) leaves the step a
defined no-op. -/
theorem renormalization_guard_witness :
    clampState cfg0 (rawUpdate cfg0 0 (0, 0, 0)) = ((0 : ℚ), (0 : ℚ), (0 : ℚ)) ∧
      eulerStep cfg0 0 (0, 0, 0) = ((0 : ℚ), (0 : ℚ), (0 : ℚ)) :=
  ⟨by norm_num [clampState, rawUpdate, cfg0],
    (renormalization_guard cfg0 0 (0, 0, 0) (0, 0, 0)
        (by norm_num [clampState, rawUpdate, cfg0])).2.1 (by norm_num)⟩

/-- C8: for every valid configuration, `run_sir_model` returns a time axis
of exactly `time_steps + 1` values starting at 0, ending at `total_time`,
with consecutive points differing by `total_time / time_steps`, paired with
three compartment sequences each of length `time_steps + 1`. -/
theorem result_shape (cfg : Config) (hv : cfg.valid) :
    ∃ t S I R, run_sir_model cfg = some (t, S, I, R) ∧
      t.length = cfg.time_steps + 1 ∧ S.length = cfg.time_steps + 1 ∧
      I.length = cfg.time_steps + 1 ∧ R.length = cfg.time_steps + 1 ∧
      t.getD 0 0 = 0 ∧ t.getD cfg.time_steps 0 = cfg.total_time ∧
      ∀ i < cfg.time_steps,
        t.getD (i + 1) 0 - t.getD i 0 = cfg.total_time / (cfg.time_steps : ℚ) := by
  refine ⟨_, _, _, _, run_eq_of_valid cfg hv, by simp, by simp, by simp, by simp,
    ?_, ?_, ?_⟩
  · rw [getD_map_range _ (Nat.succ_pos _)]
    simp [Config.t]
  · rw [getD_map_range _ (Nat.lt_succ_self _)]
    have hn : (cfg.time_steps : ℚ) ≠ 0 :=
      Nat.cast_ne_zero.mpr hv.2.2.2.2.2.2.2.1.ne'
    unfold Config.t Config.dt
    rw [mul_comm, div_mul_cancel₀ _ hn]
  · intro i hiu
    rw [getD_map_range _ (by omega), getD_map_range _ (by omega)]
    unfold Config.t Config.dt
    push_cast
    ring

/-- Witness for C8 at `cfgW`. -/
theorem result_shape_witness :
    cfgW.valid ∧
      (∃ t S I R, run_sir_model cfgW = some (t, S, I, R) ∧
        t.length = cfgW.time_steps + 1 ∧ S.length = cfgW.time_steps + 1 ∧
        I.length = cfgW.time_steps + 1 ∧ R.length = cfgW.time_steps + 1 ∧
        t.getD 0 0 = 0 ∧ t.getD cfgW.time_steps 0 = cfgW.total_time ∧
        ∀ i < cfgW.time_steps,
          t.getD (i + 1) 0 - t.getD i 0 =
            cfgW.total_time / (cfgW.time_steps : ℚ)) :=
  ⟨cfgW_valid, result_shape cfgW cfgW_valid⟩

/-- C10 (implicit): when no intervention is configured
(`intervencao_dia = none`), the result of `run_sir_model` does not depend on
the `beta_pos_intervencao` argument: any two values of it (including
`none`/absent) yield identical outputs, because the rate selection never
reads it. -/
theorem no_intervention_rate_independence (cfg : Config) (r1 r2 : Option ℚ)
    (h : cfg.intervencao_dia = none) :
    run_sir_model (withRate cfg r1) = run_sir_model (withRate cfg r2) :=
  (run_withRate cfg r1 h).trans (run_withRate cfg r2 h).symm

/-- Witness for C10: replacing the unused replacement rate of `cfgW` by
`some 5` or leaving it absent yields the same run. -/
theorem no_intervention_rate_independence_witness :
    cfgW.intervencao_dia = none ∧
      run_sir_model (withRate cfgW (some 5)) =
        run_sir_model (withRate cfgW none) :=
  ⟨rfl, no_intervention_rate_independence cfgW (some 5) none rfl⟩

/-- C5 counterexample: `cfgC5` is an invalid configuration
(`intervencao_dia = some 5` is set while `beta_pos_intervencao` is missing),
yet `run_sir_model` signals no configuration error: it performs the whole
computation and returns a full result, because the intervention day lies
beyond the horizon so the missing rate is never read. -/
theorem no_validation_counterexample :
    cfgC5.intervencao_dia = some 5 ∧ cfgC5.beta_pos_intervencao = none ∧
      run_sir_model cfgC5 = some ([0, 1], [1, 1], [0, 0], [0, 0]) :=
  ⟨rfl, rfl,
    by norm_num [run_sir_model, state, stateD, cfgC5, eulerStep, renormalize,
      clampState, rawUpdate, currentBeta, Config.t, Config.dt, List.range_succ]⟩

/-- C5 amended: the Integrator performs no configuration validation.  An
invalid configuration with `intervencao_dia` set but `beta_pos_intervencao`
missing completes normally with a full result when the intervention never
fires (`cfgC5`), and fails only mid-loop — after the result arrays exist —
when it does fire (`cfgC5fire`); only `time_steps = 0` fails before any
array allocation, via the division by zero in `dt` (`cfgC5zero`). -/
theorem no_validation_amended :
    run_sir_model cfgC5 = some ([0, 1], [1, 1], [0, 0], [0, 0]) ∧
      run_sir_model cfgC5fire = none ∧
      run_sir_model cfgC5zero = none :=
  ⟨by norm_num [run_sir_model, state, stateD, cfgC5, eulerStep, renormalize,
      clampState, rawUpdate, currentBeta, Config.t, Config.dt, List.range_succ],
    by norm_num [run_sir_model, state, stateD, cfgC5fire, eulerStep, renormalize,
      clampState, rawUpdate, currentBeta, Config.t, Config.dt],
    by norm_num [run_sir_model, cfgC5zero]⟩
